import Mathlib

/-!
# Verification of the daibug hub against its specification

Shallow embedding of the daibug repository's core data model and
operations: JSON payloads, the redactor (`src/redactor.ts`), the glob
matcher, the ring buffer (`src/ring-buffer.ts`), the watch-rule engine
(`src/watch-rules.ts`), the hub's child-output and WebSocket message
handlers (`src/hub.ts`), session export/import (`src/session.ts`), and
the MCP tool sandbox (`src/mcp-tools.ts`).

JavaScript objects are modelled as key/value sequences with
first-occurrence lookup (JavaScript guarantees key uniqueness, so the
two agree on every object the runtime can build).  JavaScript strings
are Lean `String`s; case folding is modelled with `Char.toLower`/
`Char.toUpper`, which matches `toLowerCase`/`toUpperCase` on the ASCII
range the code's field names, method names and URL patterns live in.
Platform facilities that are not part of the repository (the WHATWG
`URL` parser, `JSON.stringify`/`JSON.parse`) are modelled explicitly
where needed, as documented at their definitions.
-/

/-- JavaScript `String.prototype.toLowerCase`, ASCII range. -/
def strLower (s : String) : String := String.mk (s.data.map Char.toLower)

/-- JavaScript `String.prototype.toUpperCase`, ASCII range. -/
def strUpper (s : String) : String := String.mk (s.data.map Char.toUpper)

/-- Whitespace as JavaScript `trim` sees it (ASCII subset). -/
def charIsWs (c : Char) : Bool :=
  c = ' ' || c = '\t' || c = '\n' || c = '\r' || c = Char.ofNat 12 || c = Char.ofNat 11

/-- JavaScript `String.prototype.trim`. -/
def strTrim (s : String) : String :=
  String.mk (((s.data.dropWhile charIsWs).reverse.dropWhile charIsWs).reverse)

mutual
/-- A JSON value, as produced by `JSON.parse` on an inbound frame:
`null`, booleans, numbers (modelled as integers — the payload fields the
code inspects are status codes, coordinates and ids), strings, arrays
and objects. -/
inductive Json where
  | null : Json
  | bool (b : Bool) : Json
  | num (n : Int) : Json
  | str (s : String) : Json
  | arr (items : JsonArr) : Json
  | obj (entries : JsonObj) : Json
deriving DecidableEq
/-- The element sequence of a JSON array. -/
inductive JsonArr where
  | nil : JsonArr
  | cons (hd : Json) (tl : JsonArr) : JsonArr
deriving DecidableEq
/-- The key/value sequence of a JSON object. -/
inductive JsonObj where
  | nil : JsonObj
  | cons (key : String) (val : Json) (tl : JsonObj) : JsonObj
deriving DecidableEq
end

/-- First-occurrence field lookup on a JavaScript object. -/
def getField (o : JsonObj) (key : String) : Option Json :=
  match o with
  | .nil => none
  | .cons k v tl => if k = key then some v else getField tl key

/-- JavaScript property assignment `o[key] = v`: overwrite the existing
slot if the key is present, otherwise append a new entry. -/
def setField (o : JsonObj) (key : String) (v : Json) : JsonObj :=
  match o with
  | .nil => .cons key v .nil
  | .cons k w tl =>
    if k = key then .cons key v tl else .cons k w (setField tl key v)

/-- JavaScript `key in o`. -/
def hasField (o : JsonObj) (key : String) : Bool :=
  (getField o key).isSome

/-- The guard of `deepCloneAndRedact` in `src/redactor.ts`:
`currentKey && sensitiveFields.has(currentKey.toLowerCase())`.  The JS
`&&` treats the empty string as falsy, so an empty key never triggers
redaction even when the empty string is a configured field. -/
def redactHit (sensitiveFields : List String) (currentKey : Option String) : Bool :=
  (currentKey.getD "") ≠ "" && sensitiveFields.contains (strLower (currentKey.getD ""))

mutual
/-- `deepCloneAndRedact` from `src/redactor.ts`: walk a value; whenever
the current key triggers `redactHit`, replace the value with
`"[REDACTED]"`; otherwise clone arrays element-wise (array items carry
no key) and objects entry-wise, descending with each entry's key. -/
def deepCloneAndRedact (sensitiveFields : List String) (currentKey : Option String)
    (value : Json) : Json :=
  if redactHit sensitiveFields currentKey then
    Json.str "[REDACTED]"
  else
    match value with
    | .null => .null
    | .bool b => .bool b
    | .num n => .num n
    | .str s => .str s
    | .arr items => .arr (deepCloneAndRedactArr sensitiveFields items)
    | .obj entries => .obj (deepCloneAndRedactObj sensitiveFields entries)
  termination_by structural value
/-- Array part of `deepCloneAndRedact` (`value.map(item => …)`). -/
def deepCloneAndRedactArr (sensitiveFields : List String) (l : JsonArr) : JsonArr :=
  match l with
  | .nil => .nil
  | .cons hd tl =>
    .cons (deepCloneAndRedact sensitiveFields none hd)
      (deepCloneAndRedactArr sensitiveFields tl)
  termination_by structural l
/-- Object part of `deepCloneAndRedact` (the `Object.entries` loop). -/
def deepCloneAndRedactObj (sensitiveFields : List String) (o : JsonObj) : JsonObj :=
  match o with
  | .nil => .nil
  | .cons k v tl =>
    .cons k (deepCloneAndRedact sensitiveFields (some k) v)
      (deepCloneAndRedactObj sensitiveFields tl)
  termination_by structural o
end

/-- The sensitive-field set built by `createRedactor`:
`new Set(config.fields.map(f => f.toLowerCase()))`. -/
def mkSensitiveFields (fields : List String) : List String := fields.map strLower

/-- `redactObject` from `src/redactor.ts`: `deepCloneAndRedact` on a
top-level object (the top-level call passes no current key, so the walk
enters the object branch and descends per entry). -/
def redactObject (sensitiveFields : List String) (o : JsonObj) : JsonObj :=
  deepCloneAndRedactObj sensitiveFields o

mutual
/-- The walk of spec §8.3 on a JSON value, as literally claimed: no
value stored under a key whose lowercase form is a sensitive field is
anything but the string `"[REDACTED]"`, at any depth. -/
def payloadCleanJson (sensitiveFields : List String) (v : Json) : Bool :=
  match v with
  | .arr items => payloadCleanArr sensitiveFields items
  | .obj entries => payloadCleanObj sensitiveFields entries
  | _ => true
  termination_by structural v
/-- The §8.3 walk over the elements of an array. -/
def payloadCleanArr (sensitiveFields : List String) (l : JsonArr) : Bool :=
  match l with
  | .nil => true
  | .cons hd tl =>
    payloadCleanJson sensitiveFields hd && payloadCleanArr sensitiveFields tl
  termination_by structural l
/-- The §8.3 walk over the entries of an object. -/
def payloadCleanObj (sensitiveFields : List String) (o : JsonObj) : Bool :=
  match o with
  | .nil => true
  | .cons k v tl =>
    (!(sensitiveFields.contains (strLower k)) || v == Json.str "[REDACTED]")
      && payloadCleanJson sensitiveFields v && payloadCleanObj sensitiveFields tl
  termination_by structural o
end

mutual
/-- When the empty string is not a sensitive field, the redactor's walk
establishes the §8.3 cleanliness property at every node. -/
theorem deepCloneAndRedact_clean (sf : List String) (hsf : sf.contains "" = false)
    (ck : Option String) (v : Json) :
    payloadCleanJson sf (deepCloneAndRedact sf ck v) = true := by
  match v with
  | .null => rw [deepCloneAndRedact]; split <;> rfl
  | .bool b => rw [deepCloneAndRedact]; split <;> rfl
  | .num n => rw [deepCloneAndRedact]; split <;> rfl
  | .str s => rw [deepCloneAndRedact]; split <;> rfl
  | .arr items =>
    rw [deepCloneAndRedact]; split
    · rfl
    · simpa [payloadCleanJson] using deepCloneAndRedactArr_clean sf hsf items
  | .obj entries =>
    rw [deepCloneAndRedact]; split
    · rfl
    · simpa [payloadCleanJson] using deepCloneAndRedactObj_clean sf hsf entries
  termination_by structural v
/-- Array case of `deepCloneAndRedact_clean`. -/
theorem deepCloneAndRedactArr_clean (sf : List String) (hsf : sf.contains "" = false)
    (l : JsonArr) :
    payloadCleanArr sf (deepCloneAndRedactArr sf l) = true := by
  match l with
  | .nil => rfl
  | .cons hd tl =>
    simp [deepCloneAndRedactArr, payloadCleanArr,
      deepCloneAndRedact_clean sf hsf none hd, deepCloneAndRedactArr_clean sf hsf tl]
  termination_by structural l
/-- Object case of `deepCloneAndRedact_clean`. -/
theorem deepCloneAndRedactObj_clean (sf : List String) (hsf : sf.contains "" = false)
    (o : JsonObj) :
    payloadCleanObj sf (deepCloneAndRedactObj sf o) = true := by
  match o with
  | .nil => rfl
  | .cons k v tl =>
    simp only [deepCloneAndRedactObj, payloadCleanObj, Bool.and_eq_true]
    refine ⟨⟨?_, deepCloneAndRedact_clean sf hsf (some k) v⟩,
      deepCloneAndRedactObj_clean sf hsf tl⟩
    rw [deepCloneAndRedact.eq_def]
    split
    · simp
    · rename_i h
      have hc : sf.contains (strLower k) = false := by
        cases hcb : sf.contains (strLower k) with
        | false => rfl
        | true =>
          have hk : k = "" := by
            by_contra hk
            refine h ?_
            simp only [redactHit, Option.getD]
            rw [hcb]
            simp [hk]
          subst hk
          have hl : strLower "" = "" := rfl
          rw [hl] at hcb
          rw [hcb] at hsf
          simp at hsf
      rw [hc]
      rfl
  termination_by structural o
end

mutual
/-- With an empty sensitive set the redactor's walk is the identity:
the deep clone reproduces the input structure exactly. -/
theorem deepCloneAndRedact_id (ck : Option String) (v : Json) :
    deepCloneAndRedact [] ck v = v := by
  match v with
  | .null => rw [deepCloneAndRedact]; simp [redactHit]
  | .bool b => rw [deepCloneAndRedact]; simp [redactHit]
  | .num n => rw [deepCloneAndRedact]; simp [redactHit]
  | .str s => rw [deepCloneAndRedact]; simp [redactHit]
  | .arr items =>
    rw [deepCloneAndRedact]
    simp [redactHit, deepCloneAndRedactArr_id items]
  | .obj entries =>
    rw [deepCloneAndRedact]
    simp [redactHit, deepCloneAndRedactObj_id entries]
  termination_by structural v
/-- Array case of `deepCloneAndRedact_id`. -/
theorem deepCloneAndRedactArr_id (l : JsonArr) :
    deepCloneAndRedactArr [] l = l := by
  match l with
  | .nil => rfl
  | .cons hd tl =>
    simp [deepCloneAndRedactArr, deepCloneAndRedact_id none hd,
      deepCloneAndRedactArr_id tl]
  termination_by structural l
/-- Object case of `deepCloneAndRedact_id`. -/
theorem deepCloneAndRedactObj_id (o : JsonObj) :
    deepCloneAndRedactObj [] o = o := by
  match o with
  | .nil => rfl
  | .cons k v tl =>
    simp [deepCloneAndRedactObj, deepCloneAndRedact_id (some k) v,
      deepCloneAndRedactObj_id tl]
  termination_by structural o
end

/-- The characters escaped by `escapeRegExp` in `src/redactor.ts` and
`src/watch-rules.ts` (the class `[.*+?^$\x7b\x7d()|[\]\\]`). -/
def regexMetaChars : List Char :=
  ['.', '*', '+', '?', Char.ofNat 94, '$', Char.ofNat 123, Char.ofNat 125,
   '(', ')', '|', '[', ']', '\\']

/-- `escapeRegExp`: prefix every regex metacharacter with a backslash. -/
def escapeRegExp (s : List Char) : List Char :=
  s.flatMap (fun c => if regexMetaChars.contains c then ['\\', c] else [c])

/-- Fuel-indexed global string replacement, the semantics of JavaScript
`str.replace(/pat/g, rep)` for a literal pattern: scan left to right,
replace each non-overlapping occurrence, continue after the match (the
replacement text is not rescanned).  One unit of fuel is spent per
consumed source character, so `fuel = s.length` never runs out; the
zero-fuel fallback returns the remainder unchanged and is unreachable
from `replaceAll`. -/
def replaceAllFuel (pat rep : List Char) (fuel : Nat) (s : List Char) : List Char :=
  match fuel, s with
  | 0, s => s
  | _ + 1, [] => []
  | fuel + 1, c :: rest =>
    if pat ≠ [] ∧ pat.isPrefixOf (c :: rest) then
      rep ++ replaceAllFuel pat rep fuel (rest.drop (pat.length - 1))
    else c :: replaceAllFuel pat rep fuel rest

/-- JavaScript `str.replace(/pat/g, rep)` for a literal pattern. -/
def replaceAll (pat rep : List Char) (s : List Char) : List Char :=
  replaceAllFuel pat rep s.length s

/-- The `__DOUBLE_STAR__` placeholder of `toGlobRegex`. -/
def doubleStarMarker : List Char := "__DOUBLE_STAR__".data

/-- The regex source built by `toGlobRegex` (before anchoring): protect
`**` with a marker, escape regex metacharacters, then turn the marker
and every escaped single `*` into `.*`. -/
def toGlobRegexSource (pattern : String) : List Char :=
  let escaped1 := replaceAll ['*', '*'] doubleStarMarker pattern.data
  let escaped2 := escapeRegExp escaped1
  let escaped3 := replaceAll doubleStarMarker ['.', '*'] escaped2
  replaceAll ['\\', '*'] ['.', '*'] escaped3

/-- A token of the regexes produced by `toGlobRegex`: such a source is a
concatenation of escaped literals, plain literal characters and `.*`
wildcards, under the `^…$` anchors and the `i` flag. -/
inductive GTok where
  | lit (c : Char) : GTok
  | anyStar : GTok
deriving DecidableEq

/-- Parse a `toGlobRegex` source into tokens.  In sources produced by
the pipeline every unescaped `.` is immediately followed by `*` (both
only arise from the `.*` insertions), so the catch-all literal cases
are unreachable there. -/
def parseRegexSource : List Char → List GTok
  | [] => []
  | '\\' :: c :: rest => .lit c :: parseRegexSource rest
  | '.' :: '*' :: rest => .anyStar :: parseRegexSource rest
  | c :: rest => .lit c :: parseRegexSource rest

/-- Fuel-indexed anchored regex matching for the token language: a
literal consumes one character case-insensitively (the `i` flag), `.*`
consumes any number of characters.  Each recursive call decreases
`toks.length + s.length`, so that much fuel never runs out; the
zero-fuel fallback answers `false` and is unreachable from `gmatch`. -/
def gmatchFuel (fuel : Nat) (toks : List GTok) (s : List Char) : Bool :=
  match fuel, toks, s with
  | 0, _, _ => false
  | _ + 1, [], [] => true
  | _ + 1, [], _ :: _ => false
  | _ + 1, .lit _ :: _, [] => false
  | fuel + 1, .lit c :: ts, x :: xs =>
    (Char.toLower c = Char.toLower x) && gmatchFuel fuel ts xs
  | fuel + 1, .anyStar :: ts, [] => gmatchFuel fuel ts []
  | fuel + 1, .anyStar :: ts, x :: xs =>
    gmatchFuel fuel ts (x :: xs) || gmatchFuel fuel (.anyStar :: ts) xs

/-- Anchored, case-insensitive matching of a compiled glob. -/
def gmatch (toks : List GTok) (s : List Char) : Bool :=
  gmatchFuel (toks.length + s.length + 1) toks s

/-- `toGlobRegex(pattern).test(s)`: compile the glob and match the whole
string, case-insensitively. -/
def toGlobRegex (pattern : String) (s : String) : Bool :=
  gmatch (parseRegexSource (toGlobRegexSource pattern)) s.data

/-- The outcome of URL parsing, as far as the code consumes it:
`hostname` (lowercased), `pathname` and `search`. -/
structure ParsedUrl where
  scheme : String
  hostname : String
  pathname : String
  search : String
deriving DecidableEq

/-- A character allowed after the first in a URL scheme. -/
def charIsSchemeTail (c : Char) : Bool :=
  c.isAlpha || c.isDigit || c = '+' || c = '-' || c = '.'

/-- A character that ends the authority section of a URL. -/
def charEndsAuthority (c : Char) : Bool :=
  c = '/' || c = '?' || c = '#'

/-- Modelled from the spec: the WHATWG `new URL(url)` parser invoked by
`normalizeUrlForMatch` (redactor, watch rules) and `isLocalhostUrl`
(tool sandbox) is a platform facility, not repository code.  The spec
uses it only to strip scheme and host, keeping `pathname + search`, and
to read `hostname`.  This model parses `scheme:…` with an optional
`//authority`; the hostname is the authority after any userinfo and
before any port, lowercased; with an authority an empty path reads as
`/`; the fragment is dropped; a string without a leading scheme (such
as a relative path) does not parse.  Quirks of the full WHATWG parser
beyond these URLs (scheme-specific authority defaulting, percent and
IDNA normalization) are out of scope. -/
def parseUrl (url : String) : Option ParsedUrl :=
  match url.data with
  | [] => none
  | c :: rest =>
    if c.isAlpha then
      match rest.dropWhile charIsSchemeTail with
      | ':' :: afterScheme =>
        let scheme := strLower (String.mk (c :: rest.takeWhile charIsSchemeTail))
        match afterScheme with
        | '/' :: '/' :: afterSlashes =>
          let authority := afterSlashes.takeWhile (fun ch => !(charEndsAuthority ch))
          let afterAuthority := afterSlashes.dropWhile (fun ch => !(charEndsAuthority ch))
          let hostPort := (authority.reverse.takeWhile (fun ch => ch != '@')).reverse
          let host := hostPort.takeWhile (fun ch => ch != ':')
          if host = [] then none
          else
            let beforeHash := afterAuthority.takeWhile (fun ch => ch != '#')
            let path := beforeHash.takeWhile (fun ch => ch != '?')
            let search := beforeHash.dropWhile (fun ch => ch != '?')
            some ⟨scheme, strLower (String.mk host),
              if path = [] then "/" else String.mk path, String.mk search⟩
        | _ =>
          let beforeHash := afterScheme.takeWhile (fun ch => ch != '#')
          let path := beforeHash.takeWhile (fun ch => ch != '?')
          let search := beforeHash.dropWhile (fun ch => ch != '?')
          some ⟨scheme, "", String.mk path, String.mk search⟩
      | _ => none
    else none

/-- `normalizeUrlForMatch`: strip scheme and host, keeping
`pathname + search`; a URL that fails to parse is used raw. -/
def normalizeUrlForMatch (url : String) : String :=
  match parseUrl url with
  | some parsed => parsed.pathname ++ parsed.search
  | none => url

/-- `isRedactedUrl` from `createRedactor`: does the normalized URL match
any configured pattern. -/
def isRedactedUrl (urlPatterns : List String) (url : String) : Bool :=
  urlPatterns.any (fun pattern => toGlobRegex pattern (normalizeUrlForMatch url))

/-- An event as the hub stores it (`src/types.ts`): id, millisecond
timestamp, source tag, level, and a JSON-object payload. -/
structure DaibugEvent where
  id : String
  ts : Int
  source : String
  level : String
  payload : JsonObj
deriving DecidableEq

/-- `redactEvent` from `src/redactor.ts`: field-redact the payload; for
`browser:network` events whose (already field-redacted) string `url`
matches a configured pattern, overwrite `requestBody` and
`responseBody` with the sentinel; for `browser:storage` events whose
string `key` is sensitive, overwrite `value` and `previousValue` when
present. -/
def redactEvent (fields urlPatterns : List String) (event : DaibugEvent) : DaibugEvent :=
  let sensitiveFields := mkSensitiveFields fields
  let payload0 := redactObject sensitiveFields event.payload
  let payload1 :=
    if event.source = "browser:network" then
      match getField payload0 "url" with
      | some (.str url) =>
        if isRedactedUrl urlPatterns url then
          setField (setField payload0 "requestBody" (.str "[REDACTED - sensitive endpoint]"))
            "responseBody" (.str "[REDACTED - sensitive endpoint]")
        else payload0
      | _ => payload0
    else payload0
  let payload2 :=
    if event.source = "browser:storage" then
      match getField payload1 "key" with
      | some (.str key) =>
        if sensitiveFields.contains (strLower key) then
          let withValue :=
            if hasField payload1 "value" then setField payload1 "value" (.str "[REDACTED]")
            else payload1
          if hasField withValue "previousValue" then
            setField withValue "previousValue" (.str "[REDACTED]")
          else withValue
        else payload1
      | _ => payload1
    else payload1
  { event with payload := payload2 }

/-- Lowercasing is length-preserving, so only the empty string lowers to
the empty string. -/
theorem strLower_eq_empty (s : String) (h : strLower s = "") : s = "" := by
  cases s with
  | mk data =>
    have hdata : data.map Char.toLower = [] := congrArg String.data h
    have : data = [] := List.map_eq_nil_iff.mp hdata
    simp [this]

/-- If no configured redact field is empty, neither is any member of the
lowercased sensitive set. -/
theorem mkSensitiveFields_no_empty (fields : List String)
    (h : fields.contains "" = false) :
    (mkSensitiveFields fields).contains "" = false := by
  cases hc : (mkSensitiveFields fields).contains "" with
  | false => rfl
  | true =>
    exfalso
    have hmem : "" ∈ mkSensitiveFields fields := by simpa using hc
    simp only [mkSensitiveFields, List.mem_map] at hmem
    obtain ⟨f, hf, hfl⟩ := hmem
    have hfe : f = "" := strLower_eq_empty f hfl
    subst hfe
    have hcontains : fields.contains "" = true := by simpa using hf
    rw [hcontains] at h
    cases h

/-- C1 counterexample: the claim quantifies over *every* configured
redact field, but the JS guard `currentKey &&` treats an empty-string
key as absent, so with `""` among the fields the value stored under the
key `""` survives unredacted. -/
theorem redactor_empty_field_counterexample :
    ("" ∈ ([""] : List String))
      ∧ redactObject (mkSensitiveFields [""]) (JsonObj.cons "" (Json.str "secret") .nil)
          = JsonObj.cons "" (Json.str "secret") .nil
      ∧ payloadCleanObj (mkSensitiveFields [""])
          (redactObject (mkSensitiveFields [""]) (JsonObj.cons "" (Json.str "secret") .nil))
          = false :=
  ⟨by decide, by decide, by decide⟩

/-- C1 (amended): for every configuration whose redact fields are all
non-empty and every payload, walking the redacted payload finds no
value stored under a key matching a redact field (case-insensitively)
other than the literal string `"[REDACTED]"`, at any nesting depth
through objects and arrays; and the walk is a faithful deep clone — with
no sensitive fields it reproduces the payload exactly (the pure
embedding cannot mutate its argument, so the original is unchanged by
construction). -/
theorem redactor_fields_clean (fields : List String) (payload : JsonObj)
    (h : fields.contains "" = false) :
    payloadCleanObj (mkSensitiveFields fields)
        (redactObject (mkSensitiveFields fields) payload) = true
      ∧ redactObject [] payload = payload :=
  ⟨deepCloneAndRedactObj_clean (mkSensitiveFields fields)
      (mkSensitiveFields_no_empty fields h) payload,
   deepCloneAndRedactObj_id payload⟩

/-- Witness for `redactor_fields_clean` at a concrete configuration and
nested payload. -/
theorem redactor_fields_clean_witness :
    (["Password", "token"].contains "" = false)
      ∧ (payloadCleanObj (mkSensitiveFields ["Password", "token"])
            (redactObject (mkSensitiveFields ["Password", "token"])
              (JsonObj.cons "user" (Json.str "u")
                (JsonObj.cons "PASSWORD" (Json.str "hunter2")
                  (JsonObj.cons "nested"
                    (Json.obj (JsonObj.cons "Token" (Json.str "t")
                      (JsonObj.cons "ok" (Json.num 1) .nil))) .nil)))) = true
          ∧ redactObject []
              (JsonObj.cons "user" (Json.str "u")
                (JsonObj.cons "PASSWORD" (Json.str "hunter2")
                  (JsonObj.cons "nested"
                    (Json.obj (JsonObj.cons "Token" (Json.str "t")
                      (JsonObj.cons "ok" (Json.num 1) .nil))) .nil)))
            = JsonObj.cons "user" (Json.str "u")
                (JsonObj.cons "PASSWORD" (Json.str "hunter2")
                  (JsonObj.cons "nested"
                    (Json.obj (JsonObj.cons "Token" (Json.str "t")
                      (JsonObj.cons "ok" (Json.num 1) .nil))) .nil))) :=
  ⟨by decide,
   redactor_fields_clean ["Password", "token"]
     (JsonObj.cons "user" (Json.str "u")
       (JsonObj.cons "PASSWORD" (Json.str "hunter2")
         (JsonObj.cons "nested"
           (Json.obj (JsonObj.cons "Token" (Json.str "t")
             (JsonObj.cons "ok" (Json.num 1) .nil))) .nil)))
     (by decide)⟩

/-- Field redaction preserves keys and positions: looking up a key in
the redacted object yields the redaction of the original value under
that key. -/
theorem getField_redactObject (sf : List String) (o : JsonObj) (key : String) :
    getField (redactObject sf o) key
      = (getField o key).map (deepCloneAndRedact sf (some key)) := by
  match o with
  | .nil => rfl
  | .cons k v tl =>
    simp only [redactObject, deepCloneAndRedactObj, getField]
    by_cases hk : k = key
    · subst hk
      simp
    · simpa [hk] using getField_redactObject sf tl key
  termination_by structural o

/-- Looking up the key just assigned returns the assigned value. -/
theorem getField_setField_self (o : JsonObj) (key : String) (v : Json) :
    getField (setField o key v) key = some v := by
  match o with
  | .nil => simp [setField, getField]
  | .cons k w tl =>
    simp only [setField]
    by_cases hk : k = key
    · simp [hk, getField]
    · simp [hk, getField, getField_setField_self tl key v]
  termination_by structural o

/-- Assignment to one key leaves every other key's lookup unchanged. -/
theorem getField_setField_ne (o : JsonObj) (key other : String) (v : Json)
    (h : other ≠ key) :
    getField (setField o key v) other = getField o other := by
  match o with
  | .nil => simp [setField, getField, Ne.symm h]
  | .cons k w tl =>
    simp only [setField]
    by_cases hk : k = key
    · subst hk
      simp [getField, Ne.symm h]
    · simp only [hk, if_false, getField, getField_setField_ne tl key other v h]
  termination_by structural o

/-- A string value under a key that is not sensitive passes through the
redaction walk unchanged. -/
theorem deepCloneAndRedact_str (sf : List String) (key : String) (s : String)
    (h : sf.contains (strLower key) = false) :
    deepCloneAndRedact sf (some key) (Json.str s) = Json.str s := by
  rw [deepCloneAndRedact]
  have hh : redactHit sf (some key) = false := by
    simp only [redactHit, Option.getD]
    rw [h]
    simp
  rw [hh]
  simp

/-- C2 counterexample: the claim promises `payload.url` unchanged for
every matching network event, but when `"url"` is itself a configured
redact field the field walk rewrites it before the URL check, so the
stored URL is `"[REDACTED]"` rather than the original. -/
theorem redactEvent_url_field_counterexample :
    isRedactedUrl ["*"] "/a" = true
      ∧ getField (redactEvent ["url"] ["*"]
            ⟨"e1", 0, "browser:network", "info",
              JsonObj.cons "url" (Json.str "/a")
                (JsonObj.cons "requestBody" (Json.str "b") .nil)⟩).payload "url"
          = some (Json.str "[REDACTED]")
      ∧ some (Json.str "[REDACTED]") ≠ some (Json.str "/a") :=
  ⟨by decide, by decide, by decide⟩

/-- C2 (amended): for every network event whose string `payload.url`
matches a configured URL pattern — glob compiled to an anchored,
case-insensitive matcher where `**` and `*` both match any characters,
the URL first stripped to pathname + search, an unparsable URL matched
raw — and provided `"url"` is not itself among the lowercased redact
fields, the redacted event carries the sentinel in both `requestBody`
and `responseBody` while `payload.url` is unchanged. -/
theorem redactEvent_network_redaction (fields urlPatterns : List String)
    (e : DaibugEvent) (u : String)
    (hsrc : e.source = "browser:network")
    (hurl : getField e.payload "url" = some (Json.str u))
    (hfield : (mkSensitiveFields fields).contains "url" = false)
    (hmatch : isRedactedUrl urlPatterns u = true) :
    getField (redactEvent fields urlPatterns e).payload "requestBody"
        = some (Json.str "[REDACTED - sensitive endpoint]")
      ∧ getField (redactEvent fields urlPatterns e).payload "responseBody"
        = some (Json.str "[REDACTED - sensitive endpoint]")
      ∧ getField (redactEvent fields urlPatterns e).payload "url" = some (Json.str u) := by
  have hlow : strLower "url" = "url" := rfl
  have hget : getField (redactObject (mkSensitiveFields fields) e.payload) "url"
      = some (Json.str u) := by
    rw [getField_redactObject, hurl]
    exact congrArg some
      (deepCloneAndRedact_str (mkSensitiveFields fields) "url" u (by rw [hlow]; exact hfield))
  unfold redactEvent
  simp only [hsrc, hget, hmatch]
  simp only [reduceIte, String.reduceEq, if_true]
  refine ⟨?_, ?_, ?_⟩
  · rw [getField_setField_ne _ _ _ _ (by decide), getField_setField_self]
  · rw [getField_setField_self]
  · rw [getField_setField_ne _ _ _ _ (by decide), getField_setField_ne _ _ _ _ (by decide),
      hget]

/-- Witness for `redactEvent_network_redaction` at a concrete network
event whose URL is stripped to pathname + search and matched against a
`/api/**` glob. -/
theorem redactEvent_network_redaction_witness :
    ((⟨"e1", 0, "browser:network", "info",
        JsonObj.cons "url" (Json.str "http://localhost:3000/api/login?x=1")
          (JsonObj.cons "requestBody" (Json.str "user-data")
            (JsonObj.cons "responseBody" (Json.str "token-data") .nil))⟩ :
          DaibugEvent).source = "browser:network")
      ∧ getField (JsonObj.cons "url" (Json.str "http://localhost:3000/api/login?x=1")
            (JsonObj.cons "requestBody" (Json.str "user-data")
              (JsonObj.cons "responseBody" (Json.str "token-data") .nil))) "url"
          = some (Json.str "http://localhost:3000/api/login?x=1")
      ∧ (mkSensitiveFields ["password"]).contains "url" = false
      ∧ isRedactedUrl ["/api/**"] "http://localhost:3000/api/login?x=1" = true
      ∧ (getField (redactEvent ["password"] ["/api/**"]
              ⟨"e1", 0, "browser:network", "info",
                JsonObj.cons "url" (Json.str "http://localhost:3000/api/login?x=1")
                  (JsonObj.cons "requestBody" (Json.str "user-data")
                    (JsonObj.cons "responseBody" (Json.str "token-data") .nil))⟩).payload
              "requestBody"
            = some (Json.str "[REDACTED - sensitive endpoint]")
          ∧ getField (redactEvent ["password"] ["/api/**"]
              ⟨"e1", 0, "browser:network", "info",
                JsonObj.cons "url" (Json.str "http://localhost:3000/api/login?x=1")
                  (JsonObj.cons "requestBody" (Json.str "user-data")
                    (JsonObj.cons "responseBody" (Json.str "token-data") .nil))⟩).payload
              "responseBody"
            = some (Json.str "[REDACTED - sensitive endpoint]")
          ∧ getField (redactEvent ["password"] ["/api/**"]
              ⟨"e1", 0, "browser:network", "info",
                JsonObj.cons "url" (Json.str "http://localhost:3000/api/login?x=1")
                  (JsonObj.cons "requestBody" (Json.str "user-data")
                    (JsonObj.cons "responseBody" (Json.str "token-data") .nil))⟩).payload
              "url"
            = some (Json.str "http://localhost:3000/api/login?x=1")) :=
  ⟨rfl, by decide, by decide, by decide,
   redactEvent_network_redaction ["password"] ["/api/**"]
     ⟨"e1", 0, "browser:network", "info",
       JsonObj.cons "url" (Json.str "http://localhost:3000/api/login?x=1")
         (JsonObj.cons "requestBody" (Json.str "user-data")
           (JsonObj.cons "responseBody" (Json.str "token-data") .nil))⟩
     "http://localhost:3000/api/login?x=1" rfl (by decide) (by decide) (by decide)⟩

/-- `push` from `createRingBuffer` in `src/ring-buffer.ts`: when the
buffer is full, `shift()` drops the oldest element before the new one is
appended. -/
def ringPush {α : Type} (capacity : Nat) (items : List α) (item : α) : List α :=
  (if items.length ≥ capacity then items.drop 1 else items) ++ [item]

/-- A whole sequence of `push` calls, oldest first. -/
def ringPushAll {α : Type} (capacity : Nat) (items : List α) (xs : List α) : List α :=
  xs.foldl (ringPush capacity) items

/-- One `push` keeps exactly the tail that fits: starting from a state
within capacity, the result is the last `capacity` elements of the
state plus the new item. -/
theorem ringPush_drop {α : Type} (capacity : Nat) (hcap : 1 ≤ capacity)
    (items : List α) (item : α) (hlen : items.length ≤ capacity) :
    ringPush capacity items item
      = (items ++ [item]).drop ((items ++ [item]).length - capacity)
      ∧ (ringPush capacity items item).length ≤ capacity := by
  unfold ringPush
  by_cases hfull : items.length ≥ capacity
  · have heq : items.length = capacity := Nat.le_antisymm hlen hfull
    have hd : (items ++ [item]).length - capacity = 1 := by
      simp [heq]
    rw [hd, if_pos hfull]
    constructor
    · rw [List.drop_append_of_le_length (by omega)]
    · simp
      omega
  · have hd : (items ++ [item]).length - capacity = 0 := by
      simp only [List.length_append, List.length_cons, List.length_nil]
      omega
    rw [hd, if_neg hfull]
    constructor
    · simp
    · simp only [List.length_append, List.length_cons, List.length_nil]
      omega

/-- Pushing a sequence into a ring state within capacity keeps exactly
the suffix of `state ++ sequence` that fits. -/
theorem ringPushAll_drop {α : Type} (capacity : Nat) (hcap : 1 ≤ capacity)
    (xs : List α) :
    ∀ items : List α, items.length ≤ capacity →
      ringPushAll capacity items xs
        = (items ++ xs).drop ((items ++ xs).length - capacity) := by
  induction xs with
  | nil =>
    intro items hlen
    simp only [ringPushAll, List.foldl_nil, List.append_nil]
    rw [Nat.sub_eq_zero_of_le hlen, List.drop_zero]
  | cons x xs ih =>
    intro items hlen
    obtain ⟨hpush, hpushlen⟩ := ringPush_drop capacity hcap items x hlen
    have step : ringPushAll capacity items (x :: xs)
        = ringPushAll capacity (ringPush capacity items x) xs := rfl
    rw [step, ih (ringPush capacity items x) hpushlen, hpush]
    have hsplit : (items ++ [x]).drop ((items ++ [x]).length - capacity) ++ xs
        = ((items ++ [x]) ++ xs).drop ((items ++ [x]).length - capacity) :=
      (List.drop_append_of_le_length (Nat.sub_le _ _)).symm
    rw [hsplit, List.drop_drop]
    rw [List.append_assoc, List.singleton_append]
    congr 1
    simp only [List.length_drop, List.length_append, List.length_cons, List.length_nil]
    omega

/-- C3 (confirmed): for every capacity N ≥ 1 and push sequence S into an
empty ring, the final contents are the last min(|S|, N) elements of S in
insertion order, and the size never exceeds the capacity after any
prefix of the pushes (`clear` resets to the empty state, which trivially
satisfies the bound; `toArray` returns the contents as a fresh
sequence). -/
theorem ringBuffer_keeps_last_min (α : Type) (capacity : Nat) (xs : List α)
    (hcap : 1 ≤ capacity) :
    ringPushAll capacity [] xs = xs.drop (xs.length - capacity)
      ∧ (ringPushAll capacity [] xs).length = min xs.length capacity
      ∧ ∀ n : Nat, (ringPushAll capacity [] (xs.take n)).length ≤ capacity := by
  have main : ∀ ys : List α,
      ringPushAll capacity [] ys = ys.drop (ys.length - capacity) := fun ys => by
    simpa using ringPushAll_drop capacity hcap ys [] (by simp)
  refine ⟨main xs, ?_, ?_⟩
  · rw [main xs]
    simp only [List.length_drop]
    omega
  · intro n
    rw [main (xs.take n)]
    simp only [List.length_drop]
    omega

/-- Witness for `ringBuffer_keeps_last_min` at capacity 2 and three
pushes: the ring retains the last two items in order. -/
theorem ringBuffer_keeps_last_min_witness :
    1 ≤ 2
      ∧ ringPushAll 2 ([] : List Nat) [10, 20, 30] = [20, 30]
      ∧ (ringPushAll 2 ([] : List Nat) [10, 20, 30]
            = [10, 20, 30].drop ([10, 20, 30].length - 2)
          ∧ (ringPushAll 2 ([] : List Nat) [10, 20, 30]).length = min [10, 20, 30].length 2
          ∧ ∀ n : Nat, (ringPushAll 2 ([] : List Nat) ([10, 20, 30].take n)).length ≤ 2) :=
  ⟨by decide, by decide, ringBuffer_keeps_last_min Nat 2 [10, 20, 30] (by decide)⟩

/-- JavaScript strict equality `===` on JSON values as the watch engine
meets it: structural on primitives; arrays and objects compare by
reference, and since condition values (parsed from config or a tool
call) and payload values are always distinct objects, those comparisons
are `false` here. -/
def jsStrictEq (a b : Json) : Bool :=
  match a, b with
  | .null, .null => true
  | .bool x, .bool y => x == y
  | .num x, .num y => x == y
  | .str x, .str y => x == y
  | _, _ => false

/-- The index loop of `deepPartialMatch` for an expected array: every
expected element must strictly equal the actual element at the same
index (a missing actual element is `undefined` and never equal). -/
def jsArrPrefixEq (expected actual : JsonArr) : Bool :=
  match expected, actual with
  | .nil, _ => true
  | .cons _ _, .nil => false
  | .cons e etl, .cons a atl => jsStrictEq a e && jsArrPrefixEq etl atl

mutual
/-- One expected value of `deepPartialMatch` in `src/watch-rules.ts`
against the actual value found under the same key: expected arrays
require an actual array with index-wise strict prefix equality;
expected objects require an actual (non-array) object and recurse;
everything else falls through to strict equality. -/
def deepPartialMatchValue (actualValue expectedValue : Json) : Bool :=
  match expectedValue with
  | .arr el =>
    match actualValue with
    | .arr al => jsArrPrefixEq el al
    | _ => false
  | .obj eo =>
    match actualValue with
    | .obj ao => deepPartialMatchObj ao eo
    | _ => false
  | _ => jsStrictEq actualValue expectedValue
  termination_by structural expectedValue
/-- `deepPartialMatch`: every key of the expected mapping must exist in
the actual mapping with a matching value. -/
def deepPartialMatchObj (actual expected : JsonObj) : Bool :=
  match expected with
  | .nil => true
  | .cons k ev tl =>
    (match getField actual k with
     | none => false
     | some av => deepPartialMatchValue av ev)
      && deepPartialMatchObj actual tl
  termination_by structural expected
end

/-- Case-insensitive JavaScript `String.prototype.includes` via an
explicit substring scan over the character list. -/
def hasSubstr (sub : List Char) (s : List Char) : Bool :=
  sub.isPrefixOf s ||
    (match s with
     | [] => false
     | _ :: rest => hasSubstr sub rest)

/-- `eventLevelMatches` from `src/watch-rules.ts`: no list or an empty
list matches every level. -/
def eventLevelMatches (levels : Option (List String)) (level : String) : Bool :=
  match levels with
  | none => true
  | some l => if l.isEmpty then true else l.contains level

/-- `sourceMatches`: an absent source constraint is satisfied. -/
def sourceMatches (source : Option String) (eventSource : String) : Bool :=
  match source with
  | none => true
  | some s => s == eventSource

/-- `matchUrlPattern`: normalize the URL, then test the glob. -/
def matchUrlPattern (url pattern : String) : Bool :=
  toGlobRegex pattern (normalizeUrlForMatch url)

/-- The optional conditions of a watch rule (`WatchConditions` in
`src/types.ts`); an absent member is an unspecified condition. -/
structure WatchConditions where
  statusCodes : Option (List Int)
  urlPattern : Option String
  methods : Option (List String)
  levels : Option (List String)
  messageContains : Option String
  payloadContains : Option JsonObj
deriving DecidableEq

/-- `conditionsMatch` from `src/watch-rules.ts`, clause by clause in
source order; each specified, non-empty condition must hold (an empty
list or empty string behaves as unspecified, mirroring the
`&& length > 0` guards). -/
def conditionsMatch (event : DaibugEvent) (conditions : WatchConditions) : Bool :=
  (match conditions.statusCodes with
   | some codes =>
     if codes.length > 0 then
       match getField event.payload "status" with
       | some (.num status) => codes.contains status
       | _ => false
     else true
   | none => true)
  && (match conditions.urlPattern with
      | some pattern =>
        if pattern ≠ "" then
          match getField event.payload "url" with
          | some (.str url) => matchUrlPattern url pattern
          | _ => false
        else true
      | none => true)
  && (match conditions.methods with
      | some methods =>
        if methods.length > 0 then
          match getField event.payload "method" with
          | some (.str m) => (methods.map strUpper).contains (strUpper m)
          | _ => false
        else true
      | none => true)
  && eventLevelMatches conditions.levels event.level
  && (match conditions.messageContains with
      | some mc =>
        if mc ≠ "" then
          match getField event.payload "message" with
          | some (.str message) => hasSubstr (strLower mc).data (strLower message).data
          | _ => false
        else true
      | none => true)
  && (match conditions.payloadContains with
      | some expected => deepPartialMatchObj event.payload expected
      | none => true)

/-- A watch rule (`WatchRule` in `src/types.ts`). -/
structure WatchRule where
  id : String
  label : String
  source : Option String
  conditions : WatchConditions
  createdAt : Int
  active : Bool
deriving DecidableEq

/-- A watched-buffer entry (`WatchedEvent` in `src/types.ts`): the
event as stored, the matched rule's id and label, and the match time. -/
structure WatchedEvent where
  event : DaibugEvent
  ruleId : String
  ruleLabel : String
  matchedAt : Int
deriving DecidableEq

/-- The watched-buffer capacity from `src/watch-rules.ts`. -/
def WATCHED_CAPACITY : Nat := 200

/-- `addWatchedEvent`: unshift the new entry, then truncate the buffer
to capacity from the tail. -/
def addWatchedEvent (buffer : List WatchedEvent) (event : DaibugEvent)
    (rule : WatchRule) (now : Int) : List WatchedEvent :=
  (WatchedEvent.mk event rule.id rule.label now :: buffer).take WATCHED_CAPACITY

/-- The payload annotation a match writes through the shared event
reference: `watched`, `watchRuleLabel`, `watchRuleId`. -/
def annotateMatch (event : DaibugEvent) (rule : WatchRule) : DaibugEvent :=
  { event with
    payload :=
      setField
        (setField (setField event.payload "watched" (.bool true))
          "watchRuleLabel" (.str rule.label))
        "watchRuleId" (.str rule.id) }

/-- The loop body of `evaluate` for one rule: an active rule whose
source constraint and conditions hold against the event *as currently
annotated* marks it matched, annotates the shared payload, and unshifts
a watched entry; otherwise the state is untouched. -/
def evaluateStep (now : Int) (state : Bool × DaibugEvent × List WatchedEvent)
    (rule : WatchRule) : Bool × DaibugEvent × List WatchedEvent :=
  if rule.active && sourceMatches rule.source state.2.1.source
      && conditionsMatch state.2.1 rule.conditions then
    (true, annotateMatch state.2.1 rule,
     addWatchedEvent state.2.2 (annotateMatch state.2.1 rule) rule now)
  else state

/-- `evaluate` from `createWatchRuleEngine`: the rule loop as a fold of
`evaluateStep` over the rule list. -/
def evaluateRules (now : Int) (rules : List WatchRule) (event : DaibugEvent)
    (buffer : List WatchedEvent) : Bool × DaibugEvent × List WatchedEvent :=
  rules.foldl (evaluateStep now) (false, event, buffer)

/-- Annotation only touches the payload: source and level survive. -/
theorem annotateMatch_source (event : DaibugEvent) (rule : WatchRule) :
    (annotateMatch event rule).source = event.source
      ∧ (annotateMatch event rule).level = event.level :=
  ⟨rfl, rfl⟩

/-- One evaluation step never changes the threaded event's source. -/
theorem evaluateStep_source (now : Int) (state : Bool × DaibugEvent × List WatchedEvent)
    (rule : WatchRule) :
    (evaluateStep now state rule).2.1.source = state.2.1.source := by
  unfold evaluateStep
  split
  · exact (annotateMatch_source state.2.1 rule).1
  · rfl

/-- The whole rule fold never changes the threaded event's source. -/
theorem evaluateFold_source (now : Int) (rules : List WatchRule) :
    ∀ state : Bool × DaibugEvent × List WatchedEvent,
      (rules.foldl (evaluateStep now) state).2.1.source = state.2.1.source := by
  induction rules with
  | nil => intro state; rfl
  | cons r rest ih =>
    intro state
    rw [List.foldl_cons, ih (evaluateStep now state r), evaluateStep_source]

/-- C4 counterexample: `evaluate` threads the *annotated* event through
the rule list, so a later rule whose `payloadContains` references the
annotation keys can match even though the incoming event satisfies none
of its conditions — the claim promises no entry for such a rule, yet
one is inserted. -/
theorem watchRules_annotated_condition_counterexample :
    conditionsMatch
        ⟨"evt_1", 0, "vite", "info", JsonObj.cons "message" (Json.str "boom") .nil⟩
        ⟨none, none, none, none, none,
          some (JsonObj.cons "watchRuleLabel" (Json.str "A") .nil)⟩
      = false
    ∧ ((evaluateRules 0
          [⟨"rule_1", "A", none, ⟨none, none, none, none, some "boom", none⟩, 0, true⟩,
           ⟨"rule_2", "B", none,
             ⟨none, none, none, none, none,
               some (JsonObj.cons "watchRuleLabel" (Json.str "A") .nil)⟩, 0, true⟩]
          ⟨"evt_1", 0, "vite", "info", JsonObj.cons "message" (Json.str "boom") .nil⟩
          []).2.2.map (fun w => w.ruleId)) = ["rule_2", "rule_1"] :=
  ⟨by decide, by decide⟩

/-- C4 (amended): for every position in the rule list — split as
`R1 ++ [r]` — the evaluation of `r` sees the event as annotated by the
earlier matching rules of `R1`.  An active `r` whose source constraint
matches (the source is never rewritten, so this is the input event's
source) and whose conditions hold against that threaded event inserts
exactly one watched entry carrying `r.id` and `r.label` at the front of
the buffer (truncated to capacity); if `r` is inactive or any specified
condition fails against the threaded event, the state is untouched.
For rules whose conditions do not mention the annotation keys
(`watched`, `watchRuleLabel`, `watchRuleId`) the threaded event's
relevant payload fields coincide with the input event's, recovering the
claim as stated; one event matching several rules receives one entry
per match. -/
theorem evaluateRules_inserts (now : Int) (e : DaibugEvent)
    (buffer : List WatchedEvent) (R1 : List WatchRule) (r : WatchRule) :
    (evaluateRules now R1 e buffer).2.1.source = e.source
    ∧ ((r.active && sourceMatches r.source e.source
          && conditionsMatch (evaluateRules now R1 e buffer).2.1 r.conditions) = true →
        evaluateRules now (R1 ++ [r]) e buffer
          = (true, annotateMatch (evaluateRules now R1 e buffer).2.1 r,
             addWatchedEvent (evaluateRules now R1 e buffer).2.2
               (annotateMatch (evaluateRules now R1 e buffer).2.1 r) r now))
    ∧ ((r.active && sourceMatches r.source e.source
          && conditionsMatch (evaluateRules now R1 e buffer).2.1 r.conditions) = false →
        evaluateRules now (R1 ++ [r]) e buffer = evaluateRules now R1 e buffer) := by
  have hsource : (evaluateRules now R1 e buffer).2.1.source = e.source :=
    evaluateFold_source now R1 (false, e, buffer)
  have happ : evaluateRules now (R1 ++ [r]) e buffer
      = evaluateStep now (evaluateRules now R1 e buffer) r := by
    unfold evaluateRules
    rw [List.foldl_append, List.foldl_cons, List.foldl_nil]
  refine ⟨hsource, ?_, ?_⟩
  · intro hcond
    rw [happ]
    unfold evaluateStep
    rw [hsource]
    rw [if_pos hcond]
  · intro hcond
    rw [happ]
    unfold evaluateStep
    rw [hsource]
    rw [if_neg (by simp [hcond])]

/-- Witness for `evaluateRules_inserts`: a concrete status-code rule at
the head of the list inserts its entry for a matching 500 event. -/
theorem evaluateRules_inserts_witness :
    ((WatchRule.mk "rule_9" "R" (some "vite")
          ⟨some [500], none, none, none, none, none⟩ 0 true).active
        && sourceMatches (some "vite") "vite"
        && conditionsMatch
            (evaluateRules 7 []
              ⟨"evt_9", 7, "vite", "error", JsonObj.cons "status" (Json.num 500) .nil⟩
              []).2.1
            ⟨some [500], none, none, none, none, none⟩) = true
    ∧ evaluateRules 7
        ([] ++ [WatchRule.mk "rule_9" "R" (some "vite")
            ⟨some [500], none, none, none, none, none⟩ 0 true])
        ⟨"evt_9", 7, "vite", "error", JsonObj.cons "status" (Json.num 500) .nil⟩ []
      = (true,
         annotateMatch
           (evaluateRules 7 []
             ⟨"evt_9", 7, "vite", "error", JsonObj.cons "status" (Json.num 500) .nil⟩
             []).2.1
           (WatchRule.mk "rule_9" "R" (some "vite")
             ⟨some [500], none, none, none, none, none⟩ 0 true),
         addWatchedEvent
           (evaluateRules 7 []
             ⟨"evt_9", 7, "vite", "error", JsonObj.cons "status" (Json.num 500) .nil⟩
             []).2.2
           (annotateMatch
             (evaluateRules 7 []
               ⟨"evt_9", 7, "vite", "error", JsonObj.cons "status" (Json.num 500) .nil⟩
               []).2.1
             (WatchRule.mk "rule_9" "R" (some "vite")
               ⟨some [500], none, none, none, none, none⟩ 0 true))
           (WatchRule.mk "rule_9" "R" (some "vite")
             ⟨some [500], none, none, none, none, none⟩ 0 true)
           7) :=
  ⟨by decide,
   (evaluateRules_inserts 7
       ⟨"evt_9", 7, "vite", "error", JsonObj.cons "status" (Json.num 500) .nil⟩
       [] []
       (WatchRule.mk "rule_9" "R" (some "vite")
         ⟨some [500], none, none, none, none, none⟩ 0 true)).2.1
     (by decide)⟩

/-- One call into the hub's ingest pipeline: the source, level and
payload handed to `ingestEvent`. -/
structure IngestCall where
  source : String
  level : String
  payload : JsonObj
deriving DecidableEq

/-- The child stdout handler from `createHub` (`src/hub.ts`): trim the
whole arriving chunk, drop it when the trim is empty, otherwise ingest
exactly one event with the trimmed chunk as message, classified by the
hub's stateful detector (passed here as a function). -/
def onChildStdout (classifyLine : String → String) (chunk : String) : List IngestCall :=
  let message := strTrim chunk
  if message = "" then []
  else [⟨classifyLine message, "info", JsonObj.cons "message" (.str message) .nil⟩]

/-- The child stderr handler: identical, at level `warn`. -/
def onChildStderr (classifyLine : String → String) (chunk : String) : List IngestCall :=
  let message := strTrim chunk
  if message = "" then []
  else [⟨classifyLine message, "warn", JsonObj.cons "message" (.str message) .nil⟩]

/-- Split a character list at a separator; every separator starts a new
segment. -/
def splitCharList (sep : Char) : List Char → List (List Char)
  | [] => [[]]
  | c :: rest =>
    let segments := splitCharList sep rest
    if c = sep then [] :: segments
    else
      match segments with
      | [] => [[c]]
      | hd :: tl => (c :: hd) :: tl

/-- Modelled from the spec (§4.8, for comparison with the code's chunk
handler): "Lines are emitted on arrival (a trailing newline delimits)"
— one event per newline-delimited line of the chunk, each carrying
exactly that line, a trailing empty segment ignored. -/
def specLineEvents (classifyLine : String → String) (level : String)
    (chunk : String) : List IngestCall :=
  ((splitCharList '\n' chunk.data).filter (fun l => l ≠ [])).map
    (fun l => ⟨classifyLine (String.mk l), level,
      JsonObj.cons "message" (.str (String.mk l)) .nil⟩)

/-- C5 counterexample: a single stdout chunk holding two lines produces
one event whose message is the whole trimmed chunk, not one event per
line as claimed. -/
theorem childChunk_per_line_counterexample :
    (onChildStdout (fun _ => "devserver") "a\nb\n").length = 1
      ∧ onChildStdout (fun _ => "devserver") "a\nb\n"
        = [⟨"devserver", "info", JsonObj.cons "message" (.str "a\nb") .nil⟩]
      ∧ specLineEvents (fun _ => "devserver") "info" "a\nb\n"
        = [⟨"devserver", "info", JsonObj.cons "message" (.str "a") .nil⟩,
           ⟨"devserver", "info", JsonObj.cons "message" (.str "b") .nil⟩]
      ∧ onChildStdout (fun _ => "devserver") "a\nb\n"
        ≠ specLineEvents (fun _ => "devserver") "info" "a\nb\n" :=
  ⟨by decide, by decide, by decide, by decide⟩

/-- C5 (amended): for every chunk arriving on the child's stdout the
hub ingests exactly one event — source `classifyLine` of the trimmed
chunk, level `info`, message the trimmed chunk (which retains interior
newlines when the chunk held several lines) — and nothing when the
chunk trims to empty; stderr behaves identically at level `warn`. -/
theorem childChunk_one_event (classifyLine : String → String) (chunk : String) :
    (strTrim chunk ≠ "" →
      onChildStdout classifyLine chunk
          = [⟨classifyLine (strTrim chunk), "info",
              JsonObj.cons "message" (.str (strTrim chunk)) .nil⟩]
        ∧ onChildStderr classifyLine chunk
          = [⟨classifyLine (strTrim chunk), "warn",
              JsonObj.cons "message" (.str (strTrim chunk)) .nil⟩])
    ∧ (strTrim chunk = "" →
        onChildStdout classifyLine chunk = []
          ∧ onChildStderr classifyLine chunk = []) := by
  constructor
  · intro h
    constructor
    · unfold onChildStdout
      rw [if_neg h]
    · unfold onChildStderr
      rw [if_neg h]
  · intro h
    constructor
    · unfold onChildStdout
      rw [if_pos h]
    · unfold onChildStderr
      rw [if_pos h]

/-- Witness for `childChunk_one_event` at a one-line chunk with a
trailing newline. -/
theorem childChunk_one_event_witness :
    (strTrim "ready on http://localhost:3000\n" ≠ ""
        ∧ onChildStdout (fun _ => "devserver") "ready on http://localhost:3000\n"
            = [⟨(fun _ => "devserver") (strTrim "ready on http://localhost:3000\n"), "info",
                JsonObj.cons "message"
                  (.str (strTrim "ready on http://localhost:3000\n")) .nil⟩]
          ∧ onChildStderr (fun _ => "devserver") "ready on http://localhost:3000\n"
            = [⟨(fun _ => "devserver") (strTrim "ready on http://localhost:3000\n"), "warn",
                JsonObj.cons "message"
                  (.str (strTrim "ready on http://localhost:3000\n")) .nil⟩]) :=
  ⟨by decide,
   (childChunk_one_event (fun _ => "devserver") "ready on http://localhost:3000\n").1
     (by decide)⟩

/-- The state change a WebSocket message produces in the hub
(`handleWsMessage` in `src/hub.ts`): nothing, an ingested event, an
interaction-ring append, or a tab-registry upsert. -/
inductive WsEffect where
  | noop : WsEffect
  | ingest (source level : String) (payload : JsonObj) : WsEffect
  | interaction (interactionType : String) (target value url : Option String)
      (x y : Option Int) : WsEffect
  | tabUpsert (tabId : Int) (url title : String) : WsEffect
deriving DecidableEq

/-- JavaScript property access on an arbitrary parsed value: objects
look up the key, everything else yields `undefined`. -/
def jsGet (v : Json) (key : String) : Option Json :=
  match v with
  | .obj o => getField o key
  | _ => none

/-- The valid `source` tags (`VALID_EVENT_SOURCES` in `src/hub.ts`). -/
def VALID_EVENT_SOURCES : List String :=
  ["vite", "next", "devserver", "browser:console", "browser:network",
   "browser:dom", "browser:storage"]

/-- The valid levels (`VALID_EVENT_LEVELS` in `src/hub.ts`). -/
def VALID_EVENT_LEVELS : List String := ["info", "warn", "error", "debug"]

/-- `normalizeEventSource`: a string in the valid set, else null. -/
def normalizeEventSource (input : Option Json) : Option String :=
  match input with
  | some (.str s) => if VALID_EVENT_SOURCES.contains s then some s else none
  | _ => none

/-- `normalizeEventLevel`: a string in the valid set, else null. -/
def normalizeEventLevel (input : Option Json) : Option String :=
  match input with
  | some (.str s) => if VALID_EVENT_LEVELS.contains s then some s else none
  | _ => none

/-- `normalizePayload`: a non-null, non-array object, else null. -/
def normalizePayload (input : Option Json) : Option JsonObj :=
  match input with
  | some (.obj o) => some o
  | _ => none

/-- `normalizePayload` applied to an already-present value (the
`msg.payload ?? msg` argument of the `browser_storage` branch). -/
def normalizePayloadValue (v : Json) : Option JsonObj :=
  match v with
  | .obj o => some o
  | _ => none

/-- The final fallthrough of `handleWsMessage` (commented in the source
as the backward-compatible payload format without `type`): validate
source, level and payload, and ingest when all three pass. -/
def legacyIngest (msg : Json) : WsEffect :=
  match normalizeEventSource (jsGet msg "source"),
      normalizeEventLevel (jsGet msg "level"),
      normalizePayload (jsGet msg "payload") with
  | some source, some level, some payload => .ingest source level payload
  | _, _, _ => .noop

/-- `handleWsMessage` from `src/hub.ts`: dispatch on `msg.type` for the
four recognized values; any other message — including one whose `type`
is present but unrecognized — falls through to the legacy ingest
path. -/
def handleWsMessage (msg : Json) : WsEffect :=
  if jsGet msg "type" = some (.str "browser_tab_info") then
    match jsGet msg "tabId", jsGet msg "tabUrl", jsGet msg "tabTitle" with
    | some (.num tabId), some (.str tabUrl), some (.str tabTitle) =>
      .tabUpsert tabId tabUrl tabTitle
    | _, _, _ => .noop
  else if jsGet msg "type" = some (.str "browser_interaction") then
    .interaction
      (match jsGet msg "interactionType" with | some (.str s) => s | _ => "unknown")
      (match jsGet msg "target" with | some (.str s) => some s | _ => none)
      (match jsGet msg "value" with | some (.str s) => some s | _ => none)
      (match jsGet msg "url" with | some (.str s) => some s | _ => none)
      (match jsGet msg "x" with | some (.num n) => some n | _ => none)
      (match jsGet msg "y" with | some (.num n) => some n | _ => none)
  else if jsGet msg "type" = some (.str "browser_storage") then
    match normalizePayloadValue
        (match jsGet msg "payload" with
         | none => msg
         | some .null => msg
         | some p => p) with
    | some payload => .ingest "browser:storage" "info" payload
    | none => .noop
  else if jsGet msg "type" = some (.str "browser_event") then
    legacyIngest msg
  else
    legacyIngest msg

/-- C6 counterexample: a message with the unrecognized type `"bogus"`
but valid source, level and payload is *not* dropped — it is ingested
as a legacy browser event. -/
theorem wsMessage_unknown_type_counterexample :
    handleWsMessage
        (Json.obj (JsonObj.cons "type" (Json.str "bogus")
          (JsonObj.cons "source" (Json.str "vite")
            (JsonObj.cons "level" (Json.str "info")
              (JsonObj.cons "payload" (Json.obj .nil) .nil)))))
      = WsEffect.ingest "vite" "info" .nil
    ∧ WsEffect.ingest "vite" "info" .nil ≠ WsEffect.noop :=
  ⟨by decide, by decide⟩

/-- C6 (amended): a message whose `type` is present but unrecognized is
routed to the legacy path, exactly as a bare object without `type`
would be: it is ingested as a browser event precisely when it carries a
valid source, a valid level and an object payload, and dropped with no
state change otherwise. -/
theorem wsMessage_unknown_type_legacy (o : JsonObj) (t : String)
    (htype : getField o "type" = some (.str t))
    (hunknown : t ∉ ["browser_event", "browser_interaction",
      "browser_tab_info", "browser_storage"]) :
    handleWsMessage (.obj o) = legacyIngest (.obj o)
    ∧ ∀ msg : Json,
        legacyIngest msg = WsEffect.noop
          ∨ ∃ s l p, legacyIngest msg = .ingest s l p
              ∧ normalizeEventSource (jsGet msg "source") = some s
              ∧ normalizeEventLevel (jsGet msg "level") = some l
              ∧ normalizePayload (jsGet msg "payload") = some p := by
  have hne : ∀ u : String, u ∈ ["browser_event", "browser_interaction",
      "browser_tab_info", "browser_storage"] →
      (jsGet (Json.obj o) "type" = some (Json.str u)) → False := by
    intro u hu hj
    have : getField o "type" = some (Json.str u) := hj
    rw [htype] at this
    obtain ⟨rfl⟩ : t = u := by
      injection this with h1
      injection h1
    exact hunknown hu
  constructor
  · unfold handleWsMessage
    rw [if_neg (hne "browser_tab_info" (by simp)),
      if_neg (hne "browser_interaction" (by simp)),
      if_neg (hne "browser_storage" (by simp)),
      if_neg (hne "browser_event" (by simp))]
  · intro msg
    unfold legacyIngest
    cases hs : normalizeEventSource (jsGet msg "source") with
    | none => left; rfl
    | some s =>
      cases hl : normalizeEventLevel (jsGet msg "level") with
      | none => left; rfl
      | some l =>
        cases hp : normalizePayload (jsGet msg "payload") with
        | none => left; rfl
        | some p => right; exact ⟨s, l, p, rfl, rfl, rfl, rfl⟩

/-- Witness for `wsMessage_unknown_type_legacy` at the `"bogus"` typed
message: the legacy path ingests it. -/
theorem wsMessage_unknown_type_legacy_witness :
    getField (JsonObj.cons "type" (Json.str "bogus")
        (JsonObj.cons "source" (Json.str "vite")
          (JsonObj.cons "level" (Json.str "info")
            (JsonObj.cons "payload" (Json.obj .nil) .nil)))) "type"
      = some (Json.str "bogus")
    ∧ ("bogus" ∉ ["browser_event", "browser_interaction",
        "browser_tab_info", "browser_storage"])
    ∧ (handleWsMessage (.obj (JsonObj.cons "type" (Json.str "bogus")
          (JsonObj.cons "source" (Json.str "vite")
            (JsonObj.cons "level" (Json.str "info")
              (JsonObj.cons "payload" (Json.obj .nil) .nil)))))
        = legacyIngest (.obj (JsonObj.cons "type" (Json.str "bogus")
            (JsonObj.cons "source" (Json.str "vite")
              (JsonObj.cons "level" (Json.str "info")
                (JsonObj.cons "payload" (Json.obj .nil) .nil)))))
      ∧ ∀ msg : Json,
          legacyIngest msg = WsEffect.noop
            ∨ ∃ s l p, legacyIngest msg = .ingest s l p
                ∧ normalizeEventSource (jsGet msg "source") = some s
                ∧ normalizeEventLevel (jsGet msg "level") = some l
                ∧ normalizePayload (jsGet msg "payload") = some p) :=
  ⟨by decide, by decide,
   wsMessage_unknown_type_legacy
     (JsonObj.cons "type" (Json.str "bogus")
       (JsonObj.cons "source" (Json.str "vite")
         (JsonObj.cons "level" (Json.str "info")
           (JsonObj.cons "payload" (Json.obj .nil) .nil))))
     "bogus" (by decide) (by decide)⟩

/-- A session snapshot as `buildSnapshot` assembles it, restricted to
the members the serialization claims inspect: the recorder's id, the
export time and the recorded events (the remaining members — config,
interactions, watched events, storage snapshots, summary — ride along
unexamined by `ensureSessionShape`). -/
structure SessionSnapshot where
  id : String
  exportedAt : Int
  events : List DaibugEvent
deriving DecidableEq

/-- An event serialized to its JSON wire form. -/
def eventToJson (e : DaibugEvent) : Json :=
  .obj (JsonObj.cons "id" (.str e.id)
    (JsonObj.cons "ts" (.num e.ts)
      (JsonObj.cons "source" (.str e.source)
        (JsonObj.cons "level" (.str e.level)
          (JsonObj.cons "payload" (.obj e.payload) .nil)))))

/-- A list of events serialized to a JSON array. -/
def eventsToJsonArr : List DaibugEvent → JsonArr
  | [] => .nil
  | e :: rest => .cons (eventToJson e) (eventsToJsonArr rest)

/-- `exportToString` from `src/session.ts`, at the JSON-tree level:
serialize the snapshot with the literal version `"1.0"` first, the
session id, and the events re-redacted by `applySessionRedaction`.
`JSON.stringify`/`JSON.parse` (platform code) are modelled as the
identity on this tree — they are mutually inverse on every value the
recorder serializes. -/
def exportSessionJson (redactFields urlPatterns : List String)
    (s : SessionSnapshot) : Json :=
  .obj (JsonObj.cons "version" (.str "1.0")
    (JsonObj.cons "id" (.str s.id)
      (JsonObj.cons "exportedAt" (.num s.exportedAt)
        (JsonObj.cons "events"
          (.arr (eventsToJsonArr (s.events.map (redactEvent redactFields urlPatterns))))
          .nil))))

/-- `ensureSessionShape` from `src/session.ts`: require a top-level
object, `version === "1.0"`, and a non-empty string `id`; return the
parsed value itself on success. -/
def ensureSessionShape (parsed : Json) : Except String Json :=
  match parsed with
  | .obj o =>
    if getField o "version" ≠ some (.str "1.0") then
      .error "Invalid session format: unsupported or missing version"
    else
      match getField o "id" with
      | some (.str id) =>
        if id = "" then .error "Invalid session format: missing id"
        else .ok parsed
      | _ => .error "Invalid session format: missing id"
  | _ => .error "Invalid session format: top-level object expected"

/-- `importSessionFromString` at the JSON-tree level (the `JSON.parse`
failure branch raises before `ensureSessionShape` and is outside this
model). -/
def importSessionFromJson (j : Json) : Except String Json :=
  ensureSessionShape j

/-- C7 (confirmed): round-tripping a session whose id is non-empty (the
recorder's ids are `session_<ms>`, never empty) succeeds and preserves
the id, with version literally `"1.0"`; and import rejects any object
whose version differs from `"1.0"` or whose id is missing, non-string
or empty. -/
theorem session_roundtrip (redactFields urlPatterns : List String)
    (s : SessionSnapshot) (h : s.id ≠ "") :
    importSessionFromJson (exportSessionJson redactFields urlPatterns s)
        = .ok (exportSessionJson redactFields urlPatterns s)
      ∧ jsGet (exportSessionJson redactFields urlPatterns s) "id" = some (.str s.id)
      ∧ jsGet (exportSessionJson redactFields urlPatterns s) "version"
        = some (.str "1.0")
      ∧ (∀ o : JsonObj, getField o "version" ≠ some (.str "1.0") →
          importSessionFromJson (.obj o)
            = .error "Invalid session format: unsupported or missing version")
      ∧ (∀ o : JsonObj, getField o "version" = some (.str "1.0") →
          getField o "id" = some (.str "") →
          importSessionFromJson (.obj o) = .error "Invalid session format: missing id")
      ∧ (∀ o : JsonObj, getField o "version" = some (.str "1.0") →
          getField o "id" = none →
          importSessionFromJson (.obj o) = .error "Invalid session format: missing id") := by
  refine ⟨?_, by simp [exportSessionJson, jsGet, getField],
    by simp [exportSessionJson, jsGet, getField], ?_, ?_, ?_⟩
  · unfold importSessionFromJson ensureSessionShape exportSessionJson
    simp only [getField]
    rw [if_neg (by simp)]
    simp [h]
  · intro o hv
    simp [importSessionFromJson, ensureSessionShape, hv]
  · intro o hv hid
    simp [importSessionFromJson, ensureSessionShape, hv, hid]
  · intro o hv hid
    simp [importSessionFromJson, ensureSessionShape, hv, hid]

/-- Witness for `session_roundtrip` at a concrete one-event session. -/
theorem session_roundtrip_witness :
    ("session_1700000000000" ≠ "")
      ∧ (importSessionFromJson
            (exportSessionJson ["password"] []
              ⟨"session_1700000000000", 1700000000500,
                [⟨"evt_1", 1700000000100, "vite", "info",
                  JsonObj.cons "message" (.str "ready") .nil⟩]⟩)
          = .ok (exportSessionJson ["password"] []
              ⟨"session_1700000000000", 1700000000500,
                [⟨"evt_1", 1700000000100, "vite", "info",
                  JsonObj.cons "message" (.str "ready") .nil⟩]⟩)
        ∧ jsGet (exportSessionJson ["password"] []
              ⟨"session_1700000000000", 1700000000500,
                [⟨"evt_1", 1700000000100, "vite", "info",
                  JsonObj.cons "message" (.str "ready") .nil⟩]⟩) "id"
            = some (.str "session_1700000000000")
        ∧ jsGet (exportSessionJson ["password"] []
              ⟨"session_1700000000000", 1700000000500,
                [⟨"evt_1", 1700000000100, "vite", "info",
                  JsonObj.cons "message" (.str "ready") .nil⟩]⟩) "version"
            = some (.str "1.0")
        ∧ (∀ o : JsonObj, getField o "version" ≠ some (.str "1.0") →
            importSessionFromJson (.obj o)
              = .error "Invalid session format: unsupported or missing version")
        ∧ (∀ o : JsonObj, getField o "version" = some (.str "1.0") →
            getField o "id" = some (.str "") →
            importSessionFromJson (.obj o) = .error "Invalid session format: missing id")
        ∧ (∀ o : JsonObj, getField o "version" = some (.str "1.0") →
            getField o "id" = none →
            importSessionFromJson (.obj o)
              = .error "Invalid session format: missing id")) :=
  ⟨by decide,
   session_roundtrip ["password"] []
     ⟨"session_1700000000000", 1700000000500,
       [⟨"evt_1", 1700000000100, "vite", "info",
         JsonObj.cons "message" (.str "ready") .nil⟩]⟩
     (by decide)⟩

/-- A single or double quote, the `['"]` class of the scan regexes. -/
def charIsQuote (c : Char) : Bool := c = Char.ofNat 39 || c = Char.ofNat 34

/-- One attempted match of `FETCH_URL_RE`
(`fetch\s*\(\s*['"]([^'"]+)['"]`) at the head of the input: the literal
`fetch`, optional whitespace, `(`, optional whitespace, a quote, one or
more non-quote characters (the captured URL), and a closing quote
(either kind).  Returns the capture and the number of characters the
match consumed. -/
def matchFetchAt (s : List Char) : Option (List Char × Nat) :=
  if "fetch".data.isPrefixOf s then
    match (s.drop 5).dropWhile charIsWs with
    | '(' :: afterParen =>
      match afterParen.dropWhile charIsWs with
      | q :: afterQuote =>
        if charIsQuote q then
          let run := afterQuote.takeWhile (fun c => !(charIsQuote c))
          match afterQuote.dropWhile (fun c => !(charIsQuote c)) with
          | q2 :: afterClose =>
            if run ≠ [] ∧ charIsQuote q2 then some (run, s.length - afterClose.length)
            else none
          | [] => none
        else none
      | [] => none
    | _ => none
  else none

/-- One attempted match of `XHR_URL_RE`
(`\.open\s*\(\s*['"][^'"]*['"]\s*,\s*['"]([^'"]+)['"]`) at the head of
the input: `.open`, `(`, a quoted first argument (possibly empty), a
comma, and a quoted non-empty second argument — the captured URL. -/
def matchOpenAt (s : List Char) : Option (List Char × Nat) :=
  if ".open".data.isPrefixOf s then
    match (s.drop 5).dropWhile charIsWs with
    | '(' :: afterParen =>
      match afterParen.dropWhile charIsWs with
      | q :: afterQuote =>
        if charIsQuote q then
          match afterQuote.dropWhile (fun c => !(charIsQuote c)) with
          | q2 :: afterFirst =>
            if charIsQuote q2 then
              match afterFirst.dropWhile charIsWs with
              | ',' :: afterComma =>
                match afterComma.dropWhile charIsWs with
                | q3 :: afterQuote2 =>
                  if charIsQuote q3 then
                    let run := afterQuote2.takeWhile (fun c => !(charIsQuote c))
                    match afterQuote2.dropWhile (fun c => !(charIsQuote c)) with
                    | q4 :: afterClose =>
                      if run ≠ [] ∧ charIsQuote q4 then
                        some (run, s.length - afterClose.length)
                      else none
                    | [] => none
                  else none
                | [] => none
              | _ => none
            else none
          | [] => none
        else none
      | [] => none
    | _ => none
  else none

/-- Fuel-indexed `regex.exec` loop with the `g` flag: try the matcher
at each position left to right; on a match, collect the capture and
resume after the match.  Every step consumes at least one character, so
`fuel = s.length` never runs out; the zero-fuel fallback stops early
and is unreachable from `scanCalls`. -/
def scanCallsFuel (m : List Char → Option (List Char × Nat)) :
    Nat → List Char → List (List Char)
  | 0, _ => []
  | _ + 1, [] => []
  | fuel + 1, c :: rest =>
    match m (c :: rest) with
    | some (url, n) => url :: scanCallsFuel m fuel (rest.drop (n - 1))
    | none => scanCallsFuel m fuel rest

/-- All captures of a scan regex over the expression. -/
def scanCalls (m : List Char → Option (List Char × Nat)) (s : List Char) :
    List (List Char) :=
  scanCallsFuel m s.length s

/-- `isLocalhostUrl` from `src/mcp-tools.ts`: parse the captured URL;
anything that fails to parse counts as localhost (allowed); a parsed
URL is allowed only for hostname `localhost` or `127.0.0.1`. -/
def isLocalhostUrl (url : String) : Bool :=
  match parseUrl url with
  | some parsed => parsed.hostname == "localhost" || parsed.hostname == "127.0.0.1"
  | none => true

/-- `sandboxCheck` from `src/mcp-tools.ts`: scan the expression with
both regexes; any captured URL that is not localhost yields the
violation message. -/
def sandboxCheck (expression : String) : Option String :=
  if ((scanCalls matchFetchAt expression.data ++ scanCalls matchOpenAt expression.data).any
      (fun u => !(isLocalhostUrl (String.mk u)))) then
    some "Sandbox violation: network requests to non-localhost URLs are not allowed"
  else none

/-- The `evaluate_in_browser` handler up to its first suspension
(`src/mcp-tools.ts`): after the sandbox check it either returns the
violation as the tool error with no broadcast, or broadcasts exactly
one `evaluate` command. -/
def evaluateInBrowserStart (expression evaluationId : String) :
    Option String × List JsonObj :=
  match sandboxCheck expression with
  | some violation => (some violation, [])
  | none =>
    (none,
     [JsonObj.cons "type" (.str "command")
       (JsonObj.cons "command" (.str "evaluate")
         (JsonObj.cons "evaluationId" (.str evaluationId)
           (JsonObj.cons "expression" (.str expression) .nil)))])

/-- C8 (confirmed): whenever either scan regex captures a URL that is
not localhost, the tool returns exactly the sandbox-violation error and
broadcasts nothing — the check precedes the broadcast, so no side
effect occurs. -/
theorem evaluateInBrowser_sandbox (expression evaluationId : String)
    (h : ((scanCalls matchFetchAt expression.data
            ++ scanCalls matchOpenAt expression.data).any
          (fun u => !(isLocalhostUrl (String.mk u)))) = true) :
    evaluateInBrowserStart expression evaluationId
      = (some "Sandbox violation: network requests to non-localhost URLs are not allowed",
         []) := by
  unfold evaluateInBrowserStart sandboxCheck
  rw [if_pos h]

/-- Witness for `evaluateInBrowser_sandbox`: a `fetch` of an external
host is rejected with no broadcast. -/
theorem evaluateInBrowser_sandbox_witness :
    ((scanCalls matchFetchAt "fetch(\"https://evil.com/x\")".data
        ++ scanCalls matchOpenAt "fetch(\"https://evil.com/x\")".data).any
      (fun u => !(isLocalhostUrl (String.mk u)))) = true
    ∧ evaluateInBrowserStart "fetch(\"https://evil.com/x\")" "eval_1"
      = (some "Sandbox violation: network requests to non-localhost URLs are not allowed",
         []) :=
  ⟨by decide,
   evaluateInBrowser_sandbox "fetch(\"https://evil.com/x\")" "eval_1" (by decide)⟩

/-- C10 (confirmed): the sandbox treats any captured URL that does not
parse — relative paths, malformed strings — as localhost and allows it;
a URL is rejected exactly when it parses with a hostname other than
`localhost` and `127.0.0.1`. -/
theorem isLocalhostUrl_unparsable (url : String) :
    (parseUrl url = none → isLocalhostUrl url = true)
      ∧ (isLocalhostUrl url = false
          ↔ ∃ parsed, parseUrl url = some parsed
              ∧ parsed.hostname ≠ "localhost" ∧ parsed.hostname ≠ "127.0.0.1") := by
  constructor
  · intro h
    unfold isLocalhostUrl
    rw [h]
  · unfold isLocalhostUrl
    cases hp : parseUrl url with
    | none =>
      simp
    | some parsed =>
      simp only [Bool.or_eq_false_iff, beq_eq_false_iff_ne]
      constructor
      · intro h
        exact ⟨parsed, rfl, h.1, h.2⟩
      · intro h
        obtain ⟨p2, hp2, h1, h2⟩ := h
        injection hp2 with hpe
        subst hpe
        exact ⟨h1, h2⟩

/-- Witness for `isLocalhostUrl_unparsable`: the relative path
`"/api/x"` does not parse and is allowed, while an absolute external
URL is rejected. -/
theorem isLocalhostUrl_unparsable_witness :
    parseUrl "/api/x" = none
      ∧ isLocalhostUrl "/api/x" = true
      ∧ isLocalhostUrl "https://evil.com/x" = false :=
  ⟨by decide, (isLocalhostUrl_unparsable "/api/x").1 (by decide), by decide⟩

/-- The backlog replay loop of `onBrowserEvent` in `src/hub.ts`: the
new handler is invoked once per event already in the ring, oldest
first; a handler that throws (`Except.error`) is swallowed by the
`try/catch` and the loop continues with the next event. -/
def onBrowserEventReplay (handler : DaibugEvent → Except String Unit) :
    List DaibugEvent → List (Except String Unit)
  | [] => []
  | e :: rest => handler e :: onBrowserEventReplay handler rest

/-- `onBrowserEvent`: append the handler to the listener list (future
events reach it in registration order), then synchronously replay the
ring's backlog to it before the unsubscribe function is returned. -/
def onBrowserEvent (listeners : List (DaibugEvent → Except String Unit))
    (ring : List DaibugEvent) (handler : DaibugEvent → Except String Unit) :
    List (DaibugEvent → Except String Unit) × List (Except String Unit) :=
  (listeners ++ [handler], onBrowserEventReplay handler ring)

/-- The correlated-wait predicate of the `evaluate_in_browser`
subscription (`src/mcp-tools.ts`): the first delivered event whose
payload `evaluationId` strictly equals the expected id settles the
wait. -/
def correlatedResolve (evaluationId : String) (events : List DaibugEvent) :
    Option DaibugEvent :=
  events.find? (fun e => getField e.payload "evaluationId" == some (.str evaluationId))

/-- The replay delivers every ring event exactly once, in ring order,
regardless of the handler's outcomes. -/
theorem onBrowserEventReplay_eq_map (handler : DaibugEvent → Except String Unit)
    (ring : List DaibugEvent) :
    onBrowserEventReplay handler ring = ring.map handler := by
  induction ring with
  | nil => rfl
  | cons e rest ih => simp [onBrowserEventReplay, ih]

/-- C9 (confirmed): a new subscriber is registered after the existing
listeners and is synchronously invoked once per event already in the
ring, oldest first, even when some invocations throw; consequently a
correlated wait subscribed after its command broadcast resolves against
a matching event already in the ring, at the first such event. -/
theorem onBrowserEvent_replays_backlog
    (listeners : List (DaibugEvent → Except String Unit))
    (ring : List DaibugEvent) (handler : DaibugEvent → Except String Unit)
    (evaluationId : String) :
    (onBrowserEvent listeners ring handler).1 = listeners ++ [handler]
      ∧ (onBrowserEvent listeners ring handler).2 = ring.map handler
      ∧ (∀ e, correlatedResolve evaluationId ring = some e →
          e ∈ ring ∧ getField e.payload "evaluationId" = some (.str evaluationId))
      ∧ ((∃ e ∈ ring, getField e.payload "evaluationId" = some (.str evaluationId)) →
          (correlatedResolve evaluationId ring).isSome = true) := by
  refine ⟨rfl, onBrowserEventReplay_eq_map handler ring, ?_, ?_⟩
  · intro e he
    refine ⟨List.mem_of_find?_eq_some he, ?_⟩
    have := List.find?_some he
    simpa using this
  · intro h
    obtain ⟨e, hmem, hid⟩ := h
    unfold correlatedResolve
    rw [List.find?_isSome]
    exact ⟨e, hmem, by simpa using hid⟩

/-- Witness for `onBrowserEvent_replays_backlog` on a two-event ring
whose second event carries the awaited `evaluationId`, with a handler
that throws on every event. -/
theorem onBrowserEvent_replays_backlog_witness :
    (∃ e ∈ [(⟨"evt_1", 0, "vite", "info", JsonObj.nil⟩ : DaibugEvent),
        ⟨"evt_2", 1, "browser:dom", "info",
          JsonObj.cons "evaluationId" (.str "eval_7") .nil⟩],
        getField e.payload "evaluationId" = some (.str "eval_7"))
      ∧ ((onBrowserEvent [] [⟨"evt_1", 0, "vite", "info", JsonObj.nil⟩,
            ⟨"evt_2", 1, "browser:dom", "info",
              JsonObj.cons "evaluationId" (.str "eval_7") .nil⟩]
            (fun _ => Except.error "boom")).1
          = [] ++ [fun _ => Except.error "boom"]
        ∧ (onBrowserEvent [] [⟨"evt_1", 0, "vite", "info", JsonObj.nil⟩,
              ⟨"evt_2", 1, "browser:dom", "info",
                JsonObj.cons "evaluationId" (.str "eval_7") .nil⟩]
              (fun _ => Except.error "boom")).2
          = [(⟨"evt_1", 0, "vite", "info", JsonObj.nil⟩ : DaibugEvent),
              ⟨"evt_2", 1, "browser:dom", "info",
                JsonObj.cons "evaluationId" (.str "eval_7") .nil⟩].map
              (fun _ => Except.error "boom")
        ∧ (∀ e, correlatedResolve "eval_7"
              [⟨"evt_1", 0, "vite", "info", JsonObj.nil⟩,
               ⟨"evt_2", 1, "browser:dom", "info",
                 JsonObj.cons "evaluationId" (.str "eval_7") .nil⟩] = some e →
            e ∈ [(⟨"evt_1", 0, "vite", "info", JsonObj.nil⟩ : DaibugEvent),
                ⟨"evt_2", 1, "browser:dom", "info",
                  JsonObj.cons "evaluationId" (.str "eval_7") .nil⟩]
              ∧ getField e.payload "evaluationId" = some (.str "eval_7"))
        ∧ ((∃ e ∈ [(⟨"evt_1", 0, "vite", "info", JsonObj.nil⟩ : DaibugEvent),
              ⟨"evt_2", 1, "browser:dom", "info",
                JsonObj.cons "evaluationId" (.str "eval_7") .nil⟩],
              getField e.payload "evaluationId" = some (.str "eval_7")) →
            (correlatedResolve "eval_7"
              [⟨"evt_1", 0, "vite", "info", JsonObj.nil⟩,
               ⟨"evt_2", 1, "browser:dom", "info",
                 JsonObj.cons "evaluationId" (.str "eval_7") .nil⟩]).isSome = true)) :=
  ⟨⟨⟨"evt_2", 1, "browser:dom", "info",
      JsonObj.cons "evaluationId" (.str "eval_7") .nil⟩, by decide, by decide⟩,
   onBrowserEvent_replays_backlog [] _ (fun _ => Except.error "boom") "eval_7"⟩
